import Mathlib

/-!
A shallow embedding, in Lean, of the behaviourally relevant parts of the rlberry
repository (the `AgentStats` orchestration class in
`src/rlberry/stats/agent_stats.py` and the bandit environments in
`src/rlberry/envs/bandits/bandit_base.py`), together with theorems checking the
repository's natural-language specification against the code.

Conventions used throughout:
* Python dictionaries with string keys are insertion-ordered association lists
  (`Kw`); the values they carry are abstracted as integers.
* Machine-level numeric payloads (rewards, hyperparameter values) are abstracted
  by a type parameter or by `Int`; no floating-point arithmetic is modelled.
* Fallible Python code (assertions, `deque.popleft` on an empty deque, missing
  files) is modelled with `Except`/`Option`.
* Two complementary embeddings of `AgentStats` are given: a value-semantics one
  (`AgentStatsV`, for the hyperparameter-optimization loop) and a heap-based one
  (`AgentStatsH`, where Python object references are explicit addresses, so that
  aliasing versus deep copying is observable).
-/

set_option linter.unusedVariables false

namespace RlberrySpec

/-! ## Python dictionaries -/

/-- A Python `dict` with string keys; the stored values are abstracted as
integers.  Modelled as an insertion-ordered association list. -/
abbrev Kw := List (String × Int)

/-- `d[k] = v` on an insertion-ordered dict: overwrite the binding of `k` in
place if present, otherwise append it. -/
def dictSet : Kw → String → Int → Kw
  | [], k, v => [(k, v)]
  | (k', v') :: rest, k, v =>
    if k' = k then (k', v) :: rest else (k', v') :: dictSet rest k v

/-- Python `d.update(u)`: assign every binding of `u` into `d`, in order. -/
def dictUpdate (d u : Kw) : Kw :=
  u.foldl (fun acc kv => dictSet acc kv.1 kv.2) d

/-! ## AgentStats.save / AgentStats.load (src/rlberry/stats/agent_stats.py)

`save` pickles `self.__dict__` to a file, `load` unpickles it into a freshly
built empty object (`cls(None, None)` sets no attributes, and the loaded
dictionary replaces `obj.__dict__` wholesale).  Both normalise the filename by
appending `'.pickle'` when `filename[-7:] != '.pickle'`.  The attribute
dictionary and the pickled bytes are abstract types; pickling of picklable
attributes is an arbitrary injective pair `pickleF` / `unpickleF`. -/

/-- Python string slice `s[-n:]` (for `s.length < n` it is the whole string,
exactly as in Python, since natural subtraction truncates at zero). -/
def pySliceLast (n : Nat) (s : List Char) : List Char := s.drop (s.length - n)

/-- The characters of the `'.pickle'` extension. -/
def pickleExt : List Char := ".pickle".toList

/-- agent_stats.py lines 166-167 and 174-175:
`if filename[-7:] != '.pickle': filename += '.pickle'`. -/
def normalizeFilename (s : List Char) : List Char :=
  if pySliceLast 7 s ≠ pickleExt then s ++ pickleExt else s

/-- A file system: file names mapped to file contents, latest write first. -/
abbrev FileSys (B : Type) := List (List Char × B)

/-- `open(filename, 'wb')` followed by a full write: the new content shadows
any previous file of the same name. -/
def fsWrite {B : Type} (fs : FileSys B) (name : List Char) (b : B) : FileSys B :=
  (name, b) :: fs

/-- Read a whole file, `none` when the file does not exist. -/
def fsRead {B : Type} : FileSys B → List Char → Option B
  | [], _ => none
  | (n, b) :: rest, name => if n = name then some b else fsRead rest name

/-- `AgentStats.save` (lines 153-170): normalise the filename and dump the
object's attribute dictionary (of abstract type `V`) with pickle. -/
def saveStats {B V : Type} (pickleF : V → B) (fs : FileSys B) (attrs : V)
    (filename : List Char) : FileSys B :=
  fsWrite fs (normalizeFilename filename) (pickleF attrs)

/-- `AgentStats.load` (lines 172-182): normalise the filename, unpickle the
stored dictionary and install it as the whole attribute dictionary of a fresh
object (`obj.__dict__.clear(); obj.__dict__.update(tmp_dict)`). -/
def loadStats {B V : Type} (unpickleF : B → V) (fs : FileSys B)
    (filename : List Char) : Option V :=
  (fsRead fs (normalizeFilename filename)).map unpickleF

lemma pySliceLast_eq_iff_suffix (s : List Char) :
    pySliceLast 7 s = pickleExt ↔ pickleExt <:+ s := by
  rw [List.suffix_iff_eq_drop]
  have h7 : pickleExt.length = 7 := by decide
  rw [h7]
  unfold pySliceLast
  exact ⟨fun h => h.symm, fun h => h.symm⟩

/-- C1: save/load round-trip of AgentStats.  For every attribute dictionary
whose pickling round-trips (the attributes are picklable), `save(filename)`
followed by `AgentStats.load(filename)` returns exactly the saved attribute
dictionary, and the filename normalisation performed by both is: append
`'.pickle'` exactly when the given filename does not already end in it. -/
theorem c1_save_load_roundtrip (B V : Type) (pickleF : V → B) (unpickleF : B → V)
    (hpicklable : ∀ d, unpickleF (pickleF d) = d)
    (fs : FileSys B) (attrs : V) (filename : List Char) :
    loadStats unpickleF (saveStats pickleF fs attrs filename) filename = some attrs ∧
    normalizeFilename filename =
      (if pickleExt <:+ filename then filename else filename ++ pickleExt) := by
  constructor
  · simp [loadStats, saveStats, fsWrite, fsRead, hpicklable]
  · by_cases hs : pickleExt <:+ filename
    · have he : pySliceLast 7 filename = pickleExt :=
        (pySliceLast_eq_iff_suffix filename).mpr hs
      simp [normalizeFilename, he, hs]
    · have he : ¬ pySliceLast 7 filename = pickleExt :=
        fun h => hs ((pySliceLast_eq_iff_suffix filename).mp h)
      simp [normalizeFilename, he, hs]

/-- C1 witness: a concrete save/load round-trip at filename `"stats"` (which
does not end in `'.pickle'`), with pickling instantiated by the identity. -/
theorem c1_save_load_roundtrip_witness :
    loadStats (id : Kw → Kw) (saveStats id [] [("n_fit", 4)] "stats".toList)
        "stats".toList = some [("n_fit", 4)] ∧
    normalizeFilename "stats".toList =
      (if pickleExt <:+ "stats".toList then "stats".toList
       else "stats".toList ++ pickleExt) :=
  c1_save_load_roundtrip Kw Kw id id (fun _ => rfl) [] [("n_fit", 4)] "stats".toList

/-! ## Bandit environments (src/rlberry/envs/bandits/bandit_base.py)

Rewards are abstracted by a type parameter `R`.  A frozen law's `rvs` sampler is
a function from an rng state (a natural number abstracting the numpy generator
state) to a sample and the advanced rng state. -/

/-- `Bandit` state: arm laws, the environment rng, and the attributes set by
`__init__` lines 47-51 (ten pre-sampled rewards per arm, stored in `rewards`,
and the per-arm counters `n_rewards`); `step` and `reset` never read the last
two.  `n_arms` is `len(laws)` (line 43), so it is `laws.length` here. -/
structure BanditM (R : Type) where
  laws : List (Nat → R × Nat)
  rng : Nat
  rewards : List (List R)
  n_rewards : List Nat

/-- `Bandit.step` (lines 53-64): assert that the action exists, sample a fresh
reward from the chosen arm's law using (and advancing) the environment rng, and
return `(0, reward, True, False, {})`. -/
def BanditM.step {R : Type} (b : BanditM R) (action : Nat) :
    Except String ((Nat × R × Bool × Bool × Kw) × BanditM R) :=
  if h : action < b.laws.length then
    .ok ((0, ((b.laws.get ⟨action, h⟩) b.rng).1, true, false, []),
         { b with rng := ((b.laws.get ⟨action, h⟩) b.rng).2 })
  else .error "AssertionError: action < n_arms"

/-- `Bandit.reset` (lines 66-70): return `(0, {})`; the state is untouched. -/
def BanditM.reset {R : Type} (b : BanditM R) : (Nat × Kw) × BanditM R :=
  ((0, []), b)

/-- `AdversarialBandit` state: the number of arms (`rewards.shape[1]` of the
constructor's T-by-A array) and the deque of reward rows. -/
structure AdvBanditM (R : Type) where
  n_arms : Nat
  rewards : List (List R)
deriving DecidableEq

/-- `AdversarialBandit.__init__` (lines 90-94) from a T-by-A rewards array,
given as its list of rows together with the row width A (`rewards.shape[1]`). -/
def mkAdvBanditM {R : Type} (rewards : List (List R)) (a : Nat) : AdvBanditM R :=
  { n_arms := a, rewards := rewards }

/-- `AdversarialBandit.step` (lines 96-107): assert that the action exists, pop
the leftmost reward row (an `IndexError` when the deque is empty), and return
`(0, rewards[action], True, False, {})`. -/
def AdvBanditM.step {R : Type} [Inhabited R] (b : AdvBanditM R) (action : Nat) :
    Except String ((Nat × R × Bool × Bool × Kw) × AdvBanditM R) :=
  if action < b.n_arms then
    match b.rewards with
    | [] => .error "IndexError: pop from an empty deque"
    | row :: rest =>
      .ok ((0, row.getD action default, true, false, []), { b with rewards := rest })
  else .error "AssertionError: action < n_arms"

/-- `AdversarialBandit.reset` (lines 109-113): return `(0, {})`; in particular
the reward deque is not replenished. -/
def AdvBanditM.reset {R : Type} (b : AdvBanditM R) : (Nat × Kw) × AdvBanditM R :=
  ((0, []), b)

/-- Run a sequence of `step` calls on an adversarial bandit, collecting the
rewards and the final environment; the first failure aborts the run. -/
def advRun {R : Type} [Inhabited R] (b : AdvBanditM R) :
    List Nat → Except String (List R × AdvBanditM R)
  | [] => .ok ([], b)
  | a :: as =>
    match b.step a with
    | .error e => .error e
    | .ok (out, b2) =>
      match advRun b2 as with
      | .error e => .error e
      | .ok (rs, b3) => .ok (out.2.1 :: rs, b3)

/-- Run a sequence of `step` calls on a stochastic bandit, collecting the
rewards; the first failure aborts the run. -/
def banditRun {R : Type} (b : BanditM R) : List Nat → Except String (List R)
  | [] => .ok []
  | a :: as =>
    match b.step a with
    | .error e => .error e
    | .ok (out, b2) =>
      match banditRun b2 as with
      | .error e => .error e
      | .ok rs => .ok (out.2.1 :: rs)

/-- Modelled from the spec: `rlberry.seeding.Seeder` is not under src/ (only its
use in `src/rlberry/envs/tests/test_bandits.py` is).  Per the spec's
"independent seeding" and the tests' reproducibility assertions, a Seeder is
built from a seed. -/
structure SeederM where
  seed : Nat

/-- Modelled from the spec: a Seeder deterministically derives the rng state it
installs from its seed. -/
def SeederM.rngOf (s : SeederM) : Nat := s.seed

/-- Modelled from the spec: `rlberry.seeding.safe_reseed(env, seeder)` (not
under src/) reseeds the environment's rng from the given Seeder. -/
def safeReseed {R : Type} (b : BanditM R) (s : SeederM) : BanditM R :=
  { b with rng := s.rngOf }

/-- C5 counterexample: the observable behaviour of `step` does depend on how
many steps have previously been performed.  On the `AdversarialBandit` built
from the 2-by-1 rewards array `[[1], [2]]`, the first `step(0)` returns reward
`1` while the `step(0)` performed after it returns reward `2`: the same action
yields two different observable outputs depending on the step history. -/
theorem c5_step_depends_on_history :
    ((mkAdvBanditM [[(1 : Int)], [2]] 1).step 0).map Prod.fst =
      .ok (0, 1, true, false, []) ∧
    ((((mkAdvBanditM [[(1 : Int)], [2]] 1).step 0).map Prod.snd).bind
        fun b => (b.step 0).map Prod.fst) = .ok (0, 2, true, false, []) ∧
    ((0 : Nat), (1 : Int), true, false, ([] : Kw)) ≠ (0, 2, true, false, []) :=
  ⟨rfl, rfl, by decide⟩

/-- C5 (amended): the bandit environments have a trivial step/reset lifecycle.
For every `Bandit` and valid action, `step` returns observation `0` with
terminated `True` and truncated `False` (every episode ends after one step);
for every `AdversarialBandit`, the same holds whenever its reward deque is
non-empty; `reset` always returns `(0, {})` and never changes the state; the
observation/terminated/truncated components of `step` never depend on how many
steps or resets were performed before, but the reward component does (a
`Bandit` samples from its advancing rng, an `AdversarialBandit` consumes its
reward deque and its `step` fails once the deque is empty). -/
theorem c5_trivial_lifecycle :
    (∀ (R : Type) (b : BanditM R) (a : Nat) (h : a < b.laws.length),
        BanditM.step b a =
          .ok ((0, ((b.laws.get ⟨a, h⟩) b.rng).1, true, false, ([] : Kw)),
               { b with rng := ((b.laws.get ⟨a, h⟩) b.rng).2 })) ∧
    (∀ (R : Type) [Inhabited R] (b : AdvBanditM R) (a : Nat),
        a < b.n_arms → b.rewards ≠ [] →
        ∃ row rest, b.rewards = row :: rest ∧
          AdvBanditM.step b a =
            .ok ((0, row.getD a default, true, false, ([] : Kw)),
                 { b with rewards := rest })) ∧
    (∀ (R : Type) (b : BanditM R), BanditM.reset b = ((0, ([] : Kw)), b)) ∧
    (∀ (R : Type) (b : AdvBanditM R), AdvBanditM.reset b = ((0, ([] : Kw)), b)) := by
  refine ⟨?_, ?_, ?_, ?_⟩
  · intro R b a h
    simp [BanditM.step, h]
  · intro R _ b a ha hne
    cases hb : b.rewards with
    | nil => exact absurd hb hne
    | cons row rest =>
      refine ⟨row, rest, rfl, ?_⟩
      simp [AdvBanditM.step, ha, hb]
  · intro R b; rfl
  · intro R b; rfl

/-- A concrete stochastic bandit used by witnesses: one arm whose law returns
three times the rng state and advances it. -/
def exBandit : BanditM Int :=
  { laws := [fun g => ((g : Int) * 3, g + 1)], rng := 7,
    rewards := [[]], n_rewards := [10] }

/-- C5 witness: the amended lifecycle at concrete environments: a valid step of
a concrete `Bandit`, a valid step of a concrete `AdversarialBandit` with a
non-empty deque, and a reset of the concrete `Bandit`. -/
theorem c5_trivial_lifecycle_witness :
    (∃ out, BanditM.step exBandit 0 = .ok out) ∧
    (∃ row rest, (mkAdvBanditM [[(5 : Int)], [6]] 1).rewards = row :: rest ∧
        AdvBanditM.step (mkAdvBanditM [[(5 : Int)], [6]] 1) 0 =
          .ok ((0, row.getD 0 default, true, false, ([] : Kw)),
               { mkAdvBanditM [[(5 : Int)], [6]] 1 with rewards := rest })) ∧
    BanditM.reset exBandit = ((0, ([] : Kw)), exBandit) :=
  ⟨⟨_, c5_trivial_lifecycle.1 Int exBandit 0 (by decide)⟩,
   c5_trivial_lifecycle.2.1 Int (mkAdvBanditM [[(5 : Int)], [6]] 1) 0
     (by decide) (by decide),
   c5_trivial_lifecycle.2.2.1 Int exBandit⟩

lemma advRun_spec (R : Type) [Inhabited R] (a_count : Nat) (actions : List Nat) :
    ∀ (rewards : List (List R)), (∀ a ∈ actions, a < a_count) →
      actions.length ≤ rewards.length →
      advRun ({ n_arms := a_count, rewards := rewards } : AdvBanditM R) actions =
        .ok (List.zipWith (fun row a => row.getD a default) rewards actions,
             { n_arms := a_count, rewards := rewards.drop actions.length }) := by
  induction actions with
  | nil => intro rewards _ _; simp [advRun]
  | cons a as ih =>
    intro rewards hact hlen
    cases rewards with
    | nil => simp at hlen
    | cons row rest =>
      have ha : a < a_count := hact a (List.mem_cons_self a as)
      have h1 := ih rest (fun x hx => hact x (List.mem_cons_of_mem a hx))
        (by simpa using hlen)
      simp [advRun, AdvBanditM.step, ha, h1]

/-- C7: the rewards of an `AdversarialBandit` built from a T-by-A rewards array
are consumed in order.  For any sequence of valid actions of length at most T,
the i-th step returns the entry of the i-th row (fixed at construction) at the
chosen action; once all T rows are consumed, a further step fails with an
`IndexError` because the internal deque is empty; `reset` does not replenish
the deque (it returns `(0, {})` and leaves the state unchanged). -/
theorem c7_adversarial_rewards_in_order (R : Type) [Inhabited R]
    (rewards : List (List R)) (a_count : Nat) (actions : List Nat)
    (hwf : ∀ row ∈ rewards, row.length = a_count)
    (hact : ∀ a ∈ actions, a < a_count)
    (hlen : actions.length ≤ rewards.length) :
    advRun (mkAdvBanditM rewards a_count) actions =
      .ok (List.zipWith (fun row a => row.getD a default) rewards actions,
           { n_arms := a_count, rewards := rewards.drop actions.length }) ∧
    (actions.length = rewards.length → ∀ a, a < a_count →
        AdvBanditM.step
            ({ n_arms := a_count, rewards := rewards.drop actions.length } :
              AdvBanditM R) a =
          .error "IndexError: pop from an empty deque") ∧
    (∀ b : AdvBanditM R, AdvBanditM.reset b = ((0, ([] : Kw)), b)) := by
  refine ⟨advRun_spec R a_count actions rewards hact hlen, ?_, fun b => rfl⟩
  intro heq a ha
  rw [heq, List.drop_length]
  simp [AdvBanditM.step, ha]

/-- C7 witness: the 2-by-2 rewards array `[[1, 2], [3, 4]]` with actions
`[1, 0]`: the run returns rewards `[2, 3]` (row by row, in order), the deque is
then empty, a third step fails with an `IndexError`, and `reset` leaves a
concrete bandit unchanged. -/
theorem c7_adversarial_rewards_in_order_witness :
    advRun (mkAdvBanditM [[(1 : Int), 2], [3, 4]] 2) [1, 0] =
      .ok ([2, 3], { n_arms := 2, rewards := [] }) ∧
    AdvBanditM.step ({ n_arms := 2, rewards := [] } : AdvBanditM Int) 0 =
      .error "IndexError: pop from an empty deque" ∧
    AdvBanditM.reset ({ n_arms := 2, rewards := [[9]] } : AdvBanditM Int) =
      ((0, ([] : Kw)), { n_arms := 2, rewards := [[9]] }) :=
  ⟨(c7_adversarial_rewards_in_order Int [[1, 2], [3, 4]] 2 [1, 0]
      (by decide) (by decide) (by decide)).1,
   (c7_adversarial_rewards_in_order Int [[(1 : Int), 2], [3, 4]] 2 [1, 0]
      (by decide) (by decide) (by decide)).2.1 (by decide) 0 (by decide),
   (c7_adversarial_rewards_in_order Int [[(1 : Int), 2], [3, 4]] 2 [1, 0]
      (by decide) (by decide) (by decide)).2.2 _⟩

lemma banditRun_laws_rng (R : Type) (actions : List Nat) :
    ∀ (b1 b2 : BanditM R), b1.laws = b2.laws → b1.rng = b2.rng →
      banditRun b1 actions = banditRun b2 actions := by
  induction actions with
  | nil => intro b1 b2 _ _; rfl
  | cons a as ih =>
    intro b1 b2 hl hr
    obtain ⟨l1, g1, p1, n1⟩ := b1
    obtain ⟨l2, g2, p2, n2⟩ := b2
    simp only at hl hr
    subst hl; subst hr
    by_cases h : a < l1.length
    · have hrec := ih ⟨l1, ((l1[a]) g1).2, p1, n1⟩
        ⟨l1, ((l1[a]) g1).2, p2, n2⟩ rfl rfl
      simp [banditRun, BanditM.step, h, hrec]
    · simp [banditRun, BanditM.step, h]

/-- C8: bandit sampling is deterministic in the seed.  For any two bandit
states that share the same arm laws (in particular, the same bandit before two
runs), reseeding each with a Seeder built from the same seed and then playing
the same sequence of valid actions produces the same sequence of rewards. -/
theorem c8_seed_determinism (R : Type) (b1 b2 : BanditM R) (seed : Nat)
    (actions : List Nat) (hlaws : b1.laws = b2.laws)
    (hvalid : ∀ a ∈ actions, a < b1.laws.length) :
    banditRun (safeReseed b1 ⟨seed⟩) actions =
      banditRun (safeReseed b2 ⟨seed⟩) actions :=
  banditRun_laws_rng R actions _ _ hlaws rfl

/-- C8 witness: two concrete one-arm bandits with the same laws but different
rng states and different pre-sampled attributes, reseeded from seed `42`,
produce the same rewards on the action sequence `[0, 0]`. -/
theorem c8_seed_determinism_witness :
    banditRun (safeReseed exBandit ⟨42⟩) [0, 0] =
      banditRun
        (safeReseed { exBandit with rng := 999, rewards := [[7]] } ⟨42⟩)
        [0, 0] :=
  c8_seed_determinism Int exBandit { exBandit with rng := 999, rewards := [[7]] }
    42 [0, 0] rfl (by decide)

/-! ## AgentStats: common modelling of agents, environments and joblib

`rlberry.envs.interface.Model` and the agent classes are outside src/ (only
`REINFORCEAgent` is present, and its training is PyTorch numerics).  An
environment is therefore a seed plus an abstract mutable payload, and an agent
class is abstracted by what `_fit_worker` observes of it: the trained agent,
the statistics dictionary returned by `agent.fit` (a total function on entry
names), and the training environment's state after fitting. -/

/-- A Python environment object: its seed and an abstract mutable payload. -/
structure PyEnv where
  seed : Nat
  data : Int
deriving DecidableEq, Inhabited

/-- Modelled from the spec: `env.reseed()` (in `rlberry.envs.interface.Model`,
not under src/) installs a fresh seed drawn from the global seeder; the spec
requires "independent seeding" of the environment copies. -/
def reseedVal (e : PyEnv) (s : Nat) : PyEnv := { e with seed := s }

/-- An optuna trial, abstracted as the dictionary of parameters the sampler
suggested for it (`trial.params`). -/
abbrev Trial := Kw

/-- An agent class, abstracted by what `AgentStats` observes of it:
`agent_class.name`, `agent_class.fit_info`, the behaviour of
`_fit_worker((agent_class, train_env, init_kwargs, fit_kwargs))` (the trained
agent of abstract type `A`, the statistics dict returned by `agent.fit`, and
the training environment's state after fitting, since the agent is constructed
with `copy_env=False` and may step its environment), and
`agent_class.sample_parameters(trial)`. -/
structure AgentClassM (A : Type) where
  name : String
  fit_info : List String
  fitResultAgent : PyEnv → Kw → Kw → A
  fitResultStat : PyEnv → Kw → Kw → String → Int
  fitResultEnv : PyEnv → Kw → Kw → PyEnv
  sample_parameters : Trial → Kw

/-- `joblib.Parallel(n_jobs=n_jobs, verbose=...)(delayed(f)(arg) for arg in
args)`: the external job-parallelism library applies `f` to every argument and
returns the results in order; `n_jobs` only controls how the work is
scheduled, which is invisible to the caller. -/
def joblibParallel {α β : Type} (n_jobs : Nat) (f : α → β) (args : List α) :
    List β :=
  args.map f

/-! ## AgentStats, value-semantics embedding (for optimize_hyperparams)

Object identity is not observable in this embedding: `deepcopy` of a value is
the value itself.  The global-seeder draw performed by `reseed()` is abstracted
as a fixed function `reseedM`; the numpy rng draw that seeds the optuna sampler
and the wall-clock `identifier`/`output_dir` attributes are not modelled. -/

/-- An optuna study: its list of completed trials with their objective values. -/
structure StudyM where
  trials : List (Trial × Int)
deriving DecidableEq

/-- The attributes of an `AgentStats` object (value semantics). -/
structure AgentStatsV (A : Type) where
  agent_class : AgentClassM A
  agent_name : String
  fit_info : List String
  train_env : PyEnv
  eval_env : PyEnv
  eval_horizon : Option Nat
  init_kwargs : Kw
  fit_kwargs : Kw
  policy_kwargs : Kw
  n_fit : Nat
  n_jobs : Nat
  verbose : Nat
  train_env_set : List PyEnv
  fitted_agents : Option (List A)
  fit_statistics : List (String × List Int)
  study : Option StudyM

/-- `AgentStats.__init__` (lines 28-128) with a non-None agent class, value
semantics: the eval environment is a reseeded (deep) copy of `eval_env` (or of
`train_env` when `eval_env` is `None`), `None` kwargs become `{}`, and
`train_env_set` holds `n_fit` reseeded (deep) copies of `train_env`. -/
def mkAgentStatsV {A : Type} (reseedM : PyEnv → PyEnv) (C : AgentClassM A)
    (train_env : PyEnv) (eval_env : Option PyEnv) (eval_horizon : Option Nat)
    (init_kwargs fit_kwargs policy_kwargs : Option Kw)
    (agent_name : Option String) (n_fit n_jobs verbose : Nat) : AgentStatsV A :=
  { agent_class := C
    agent_name := agent_name.getD C.name
    fit_info := C.fit_info
    train_env := train_env
    eval_env := reseedM (eval_env.getD train_env)
    eval_horizon := eval_horizon
    init_kwargs := init_kwargs.getD []
    fit_kwargs := fit_kwargs.getD []
    policy_kwargs := policy_kwargs.getD []
    n_fit := n_fit
    n_jobs := n_jobs
    verbose := verbose
    train_env_set := (List.range n_fit).map (fun _ => reseedM train_env)
    fitted_agents := none
    fit_statistics := []
    study := none }

/-- `AgentStats.fit` (lines 130-151), value semantics: build one argument
tuple per training environment (with deep copies of `init_kwargs` and
`fit_kwargs`, here value reads), run `_fit_worker` over them through
`joblib.Parallel(n_jobs=...)`, store the fitted agents, and gather, for every
entry of `fit_info`, the per-worker statistics in worker order. -/
def AgentStatsV.fitV {A : Type} (st : AgentStatsV A) : AgentStatsV A :=
  let args := st.train_env_set.map (fun e => (e, st.init_kwargs, st.fit_kwargs))
  let workers_output := joblibParallel st.n_jobs
    (fun a => (st.agent_class.fitResultAgent a.1 a.2.1 a.2.2,
               st.agent_class.fitResultStat a.1 a.2.1 a.2.2,
               st.agent_class.fitResultEnv a.1 a.2.1 a.2.2)) args
  { st with
    fitted_agents := some (workers_output.map (fun w => w.1))
    fit_statistics := st.fit_info.map
      (fun e => (e, workers_output.map (fun w => w.2.1 e)))
    train_env_set := workers_output.map (fun w => w.2.2) }

/-- Modelled from the spec: `compare_policies` (in `rlberry.stats.evaluation`,
not under src/) evaluates the fitted policies of the given `AgentStats` on
`eval_env` over `eval_horizon` with `n_sim` Monte Carlo simulations; the
`objective` only uses the mean of the resulting rewards table, so the model is
an abstract mean-reward function of those four inputs. -/
structure EvalModel (A : Type) where
  meanReward : List A → PyEnv → Nat → Nat → Int

/-- The fresh `AgentStats` built inside `objective` (lines 279-288): the same
agent class over a deep copy of `self.train_env`, with `init_kwargs` the deep
copy of `self.init_kwargs` updated with the trial's sampled parameters, deep
copies of `fit_kwargs` and `policy_kwargs`, name `'optim'`, the given `n_fit`
and `n_jobs`, and verbosity `0`. -/
def objectiveStats {A : Type} (reseedM : PyEnv → PyEnv) (self : AgentStatsV A)
    (n_fit n_jobs : Nat) (trial : Trial) : AgentStatsV A :=
  mkAgentStatsV reseedM self.agent_class self.train_env none none
    (some (dictUpdate self.init_kwargs (self.agent_class.sample_parameters trial)))
    (some self.fit_kwargs) (some self.policy_kwargs) (some "optim") n_fit n_jobs 0

/-- `objective(trial)` (lines 268-307): build the fresh `AgentStats`, fit it,
evaluate the fitted policies (via `compare_policies`) on a reseeded deep copy
of `self.eval_env` over `self.eval_horizon`, and return the mean reward. -/
def objectiveV {A : Type} (E : EvalModel A) (reseedM : PyEnv → PyEnv)
    (self : AgentStatsV A) (n_sim n_fit n_jobs : Nat) (trial : Trial) : Int :=
  let params_stats := (objectiveStats reseedM self n_fit n_jobs trial).fitV
  let params_eval_env := reseedM self.eval_env
  E.meanReward (params_stats.fitted_agents.getD []) params_eval_env
    (self.eval_horizon.getD 0) n_sim

/-- `optuna.study.best_trial`: the completed trial with the maximal value
(study direction is `'maximize'`); an error when no trial is completed. -/
def bestTrialM : List (Trial × Int) → Option (Trial × Int)
  | [] => none
  | t :: ts => some (ts.foldl (fun b x => if b.2 < x.2 then x else b) t)

/-- Study creation in `optimize_hyperparams` (lines 234-266): reuse the
previous study when `continue_previous` (asserting it exists), otherwise check
the sampler and pruner methods, raising `NotImplementedError` for unsupported
ones, and create an empty study. -/
def createStudyV {A : Type} (self : AgentStatsV A)
    (sampler_method pruner_method : String) (continue_previous : Bool) :
    Except String StudyM :=
  if continue_previous then
    match self.study with
    | some s => .ok s
    | none => .error "AssertionError: self.study is None"
  else
    if sampler_method = "random" ∨ sampler_method = "optuna_default" then
      if pruner_method = "halving" ∨ pruner_method = "none" then
        .ok { trials := [] }
      else .error "NotImplementedError: pruner method"
    else .error "NotImplementedError: sampler method"

/-- The outcome of `optimize_hyperparams`: the object's attributes after the
call, the best trial returned (`None` on the early optuna-missing return), and
the messages passed to `logging.error`. -/
structure OptimResult (A : Type) where
  state : AgentStatsV A
  best : Option (Trial × Int)
  log : List String

/-- `AgentStats.optimize_hyperparams` (lines 184-334).  When optuna is not
installed, log an error and return immediately.  Otherwise assert that
`eval_horizon` is set, create the study, run `study.optimize`: the external
sampler's proposed trials are an input (`proposals`), and optimizing evaluates
`objective` on the first `n_trials` of them, appending each completed trial to
the study; finally update `self.init_kwargs` in place with the best trial's
parameters.  The timeout, pruning, optuna's own parallelism and the numpy rng
draw seeding the sampler are not modelled. -/
def optimizeHyperparamsV {A : Type} (optunaInstalled : Bool) (E : EvalModel A)
    (reseedM : PyEnv → PyEnv) (self : AgentStatsV A)
    (n_trials n_sim n_fit n_jobs : Nat)
    (sampler_method pruner_method : String) (continue_previous : Bool)
    (proposals : List Trial) : Except String (OptimResult A) :=
  if optunaInstalled = false then
    .ok { state := self, best := none, log := ["Optuna not installed."] }
  else if self.eval_horizon = none then
    .error "AssertionError: eval_horizon must be given to AgentStats"
  else
    match createStudyV self sampler_method pruner_method continue_previous with
    | .error e => .error e
    | .ok study0 =>
      let ran := (proposals.take n_trials).map
        (fun t => (t, objectiveV E reseedM self n_sim n_fit n_jobs t))
      let study1 : StudyM := { trials := study0.trials ++ ran }
      match bestTrialM study1.trials with
      | none => .error "ValueError: best_trial: no trials are completed yet"
      | some bt =>
        .ok { state := { self with
                         study := some study1
                         init_kwargs := dictUpdate self.init_kwargs bt.1 }
              best := some bt
              log := [] }

/-- C6: hyperparameter search is optional.  With optuna not installed,
`optimize_hyperparams` returns normally (no exception) after logging
"Optuna not installed.", and the object is completely unchanged — in
particular `init_kwargs` and `study` — so `fit` behaves exactly as before the
call (and `save`/`load`, which only read the unchanged attribute dictionary,
are unaffected). -/
theorem c6_optuna_optional {A : Type} (E : EvalModel A) (reseedM : PyEnv → PyEnv)
    (self : AgentStatsV A) (n_trials n_sim n_fit n_jobs : Nat)
    (sampler_method pruner_method : String) (continue_previous : Bool)
    (proposals : List Trial) :
    optimizeHyperparamsV false E reseedM self n_trials n_sim n_fit n_jobs
        sampler_method pruner_method continue_previous proposals =
      .ok { state := self, best := none, log := ["Optuna not installed."] } ∧
    (optimizeHyperparamsV false E reseedM self n_trials n_sim n_fit n_jobs
        sampler_method pruner_method continue_previous proposals).map
      (fun r => r.state.fitV) = .ok self.fitV :=
  ⟨rfl, rfl⟩

lemma bestFold_spec (l : List (Trial × Int)) :
    ∀ b : Trial × Int,
      (l.foldl (fun b x => if b.2 < x.2 then x else b) b = b ∨
        l.foldl (fun b x => if b.2 < x.2 then x else b) b ∈ l) ∧
      b.2 ≤ (l.foldl (fun b x => if b.2 < x.2 then x else b) b).2 ∧
      ∀ p ∈ l, p.2 ≤ (l.foldl (fun b x => if b.2 < x.2 then x else b) b).2 := by
  induction l with
  | nil => intro b; exact ⟨Or.inl rfl, le_refl _, by simp⟩
  | cons x xs ih =>
    intro b
    simp only [List.foldl_cons]
    by_cases hbx : b.2 < x.2
    · rw [if_pos hbx]
      obtain ⟨hmem, hle, hall⟩ := ih x
      refine ⟨?_, le_trans (le_of_lt hbx) hle, ?_⟩
      · cases hmem with
        | inl h => exact Or.inr (by rw [h]; exact List.mem_cons_self x xs)
        | inr h => exact Or.inr (List.mem_cons_of_mem x h)
      · intro p hp
        rcases List.mem_cons.mp hp with h | h
        · rw [h]; exact hle
        · exact hall p h
    · rw [if_neg hbx]
      obtain ⟨hmem, hle, hall⟩ := ih b
      refine ⟨?_, hle, ?_⟩
      · cases hmem with
        | inl h => exact Or.inl h
        | inr h => exact Or.inr (List.mem_cons_of_mem x h)
      · intro p hp
        rcases List.mem_cons.mp hp with h | h
        · rw [h]; exact le_trans (le_of_not_lt hbx) hle
        · exact hall p h

lemma bestTrialM_spec (l : List (Trial × Int)) (hl : l ≠ []) :
    ∃ bt, bestTrialM l = some bt ∧ bt ∈ l ∧ ∀ p ∈ l, p.2 ≤ bt.2 := by
  cases l with
  | nil => exact absurd rfl hl
  | cons t ts =>
    obtain ⟨hmem, hle, hall⟩ := bestFold_spec ts t
    refine ⟨_, rfl, ?_, ?_⟩
    · cases hmem with
      | inl h => rw [h]; exact List.mem_cons_self t ts
      | inr h => exact List.mem_cons_of_mem t h
    · intro p hp
      rcases List.mem_cons.mp hp with h | h
      · rw [h]; exact hle
      · exact hall p h

/-- C4: `optimize_hyperparams` is re-entrant into the fitting/evaluation
pipeline.  For every trial, the objective builds a fresh `AgentStats` named
`'optim'` with the given `n_fit` and `n_jobs` and verbosity `0`, over deep
copies of the original `train_env`, `fit_kwargs` and `policy_kwargs`, with
`init_kwargs` overridden by the trial's sampled parameters; it calls `fit()`
on it, evaluates the fitted policies on a reseeded deep copy of `eval_env`,
and returns the mean reward.  After the study finishes, `self.init_kwargs` is
updated in place with the parameters of the best (maximal-value) completed
trial. -/
theorem c4_optimize_reentrant {A : Type} (E : EvalModel A)
    (reseedM : PyEnv → PyEnv) (self : AgentStatsV A)
    (n_trials n_sim n_fit n_jobs : Nat) (proposals : List Trial) (H : Nat)
    (hH : self.eval_horizon = some H)
    (hne : proposals.take n_trials ≠ []) :
    (∀ t : Trial,
        (objectiveStats reseedM self n_fit n_jobs t).agent_name = "optim" ∧
        (objectiveStats reseedM self n_fit n_jobs t).verbose = 0 ∧
        (objectiveStats reseedM self n_fit n_jobs t).n_fit = n_fit ∧
        (objectiveStats reseedM self n_fit n_jobs t).n_jobs = n_jobs ∧
        (objectiveStats reseedM self n_fit n_jobs t).train_env = self.train_env ∧
        (objectiveStats reseedM self n_fit n_jobs t).fit_kwargs = self.fit_kwargs ∧
        (objectiveStats reseedM self n_fit n_jobs t).policy_kwargs =
          self.policy_kwargs ∧
        (objectiveStats reseedM self n_fit n_jobs t).init_kwargs =
          dictUpdate self.init_kwargs (self.agent_class.sample_parameters t) ∧
        objectiveV E reseedM self n_sim n_fit n_jobs t =
          E.meanReward
            ((objectiveStats reseedM self n_fit n_jobs t).fitV.fitted_agents.getD [])
            (reseedM self.eval_env) H n_sim) ∧
    (∃ bt : Trial × Int,
        optimizeHyperparamsV true E reseedM self n_trials n_sim n_fit n_jobs
            "random" "none" false proposals =
          .ok { state :=
                  { self with
                    study := some (StudyM.mk ((proposals.take n_trials).map
                      (fun t => (t, objectiveV E reseedM self n_sim n_fit n_jobs t))))
                    init_kwargs := dictUpdate self.init_kwargs bt.1 }
                best := some bt
                log := [] } ∧
        bt ∈ (proposals.take n_trials).map
          (fun t => (t, objectiveV E reseedM self n_sim n_fit n_jobs t)) ∧
        (∀ p ∈ (proposals.take n_trials).map
            (fun t => (t, objectiveV E reseedM self n_sim n_fit n_jobs t)),
          p.2 ≤ bt.2)) := by
  refine ⟨?_, ?_⟩
  · intro t
    refine ⟨rfl, rfl, rfl, rfl, rfl, rfl, rfl, rfl, ?_⟩
    simp [objectiveV, hH]
  · have hran : (proposals.take n_trials).map
        (fun t => (t, objectiveV E reseedM self n_sim n_fit n_jobs t)) ≠ [] :=
      fun h => hne (List.map_eq_nil_iff.mp h)
    obtain ⟨bt, hbt, hmem, hall⟩ := bestTrialM_spec _ hran
    refine ⟨bt, ?_, hmem, hall⟩
    have hbt' : bestTrialM (List.take n_trials
        (List.map (fun t => (t, objectiveV E reseedM self n_sim n_fit n_jobs t))
          proposals)) = some bt := by
      rw [← List.map_take]; exact hbt
    simp [optimizeHyperparamsV, hH, createStudyV, hbt']

/-- A concrete agent-class model used by witnesses: agents are integers. -/
def exAgentClass : AgentClassM Int :=
  { name := "REINFORCE"
    fit_info := ["n_episodes", "episode_rewards"]
    fitResultAgent := fun e ik _ => e.data + (ik.lookup "lr").getD 0
    fitResultStat := fun e _ fk s =>
      e.data + (fk.lookup "budget").getD 0 + (s.length : Int)
    fitResultEnv := fun e _ _ => { e with data := e.data + 1 }
    sample_parameters := fun t => t }

/-- A concrete evaluation model used by witnesses. -/
def exEval : EvalModel Int :=
  { meanReward := fun agents env hor nsim =>
      agents.foldl (fun a b => a + b) 0 + env.data + (hor : Int) + (nsim : Int) }

/-- A concrete `AgentStats` object (value semantics) used by witnesses. -/
def exVStats : AgentStatsV Int :=
  mkAgentStatsV id exAgentClass { seed := 1, data := 10 } none (some 5)
    (some [("lr", 2)]) (some [("budget", 3)]) (some [("horizon", 4)]) none 2 2 5

/-- C4 witness: the re-entrant objective and the final `init_kwargs` update at
a concrete `AgentStats`, a concrete trial `[("gamma", 9)]` and one proposed
trial. -/
theorem c4_optimize_reentrant_witness :
    ((objectiveStats id exVStats 2 2 [("gamma", 9)]).agent_name = "optim" ∧
     (objectiveStats id exVStats 2 2 [("gamma", 9)]).verbose = 0 ∧
     (objectiveStats id exVStats 2 2 [("gamma", 9)]).n_fit = 2 ∧
     (objectiveStats id exVStats 2 2 [("gamma", 9)]).n_jobs = 2 ∧
     (objectiveStats id exVStats 2 2 [("gamma", 9)]).train_env =
       exVStats.train_env ∧
     (objectiveStats id exVStats 2 2 [("gamma", 9)]).fit_kwargs =
       exVStats.fit_kwargs ∧
     (objectiveStats id exVStats 2 2 [("gamma", 9)]).policy_kwargs =
       exVStats.policy_kwargs ∧
     (objectiveStats id exVStats 2 2 [("gamma", 9)]).init_kwargs =
       dictUpdate exVStats.init_kwargs
         (exVStats.agent_class.sample_parameters [("gamma", 9)]) ∧
     objectiveV exEval id exVStats 3 2 2 [("gamma", 9)] =
       exEval.meanReward
         ((objectiveStats id exVStats 2 2 [("gamma", 9)]).fitV.fitted_agents.getD [])
         (id exVStats.eval_env) 5 3) ∧
    (∃ bt : Trial × Int,
        optimizeHyperparamsV true exEval id exVStats 1 3 2 2 "random" "none"
            false [[("gamma", 9)]] =
          .ok { state :=
                  { exVStats with
                    study := some (StudyM.mk (([[("gamma", 9)]].take 1).map
                      (fun t => (t, objectiveV exEval id exVStats 3 2 2 t))))
                    init_kwargs := dictUpdate exVStats.init_kwargs bt.1 }
                best := some bt
                log := [] } ∧
        bt ∈ ([[("gamma", 9)]].take 1).map
          (fun t => (t, objectiveV exEval id exVStats 3 2 2 t)) ∧
        (∀ p ∈ ([[("gamma", 9)]].take 1).map
            (fun t => (t, objectiveV exEval id exVStats 3 2 2 t)),
          p.2 ≤ bt.2)) :=
  ⟨(c4_optimize_reentrant exEval id exVStats 1 3 2 2 [[("gamma", 9)]] 5 rfl
      (by decide)).1 [("gamma", 9)],
   (c4_optimize_reentrant exEval id exVStats 1 3 2 2 [[("gamma", 9)]] 5 rfl
      (by decide)).2⟩

/-! ## AgentStats, heap embedding

Python objects live on a heap and variables hold references; `deepcopy` is a
fresh allocation, plain assignment is aliasing.  The heap holds the environment
objects and the kwargs dictionaries; references are indices into the
corresponding list (allocation appends, so older references are stable). -/

/-- The Python heap: environment objects and kwargs dictionaries, addressed by
their index. -/
structure Heap where
  envs : List PyEnv
  dicts : List Kw

/-- Dereference an environment. -/
def Heap.getEnv (h : Heap) (r : Nat) : PyEnv := h.envs.getD r default

/-- Allocate a fresh environment object (e.g. the result of `deepcopy`),
returning the new heap and the fresh reference. -/
def Heap.allocEnv (h : Heap) (e : PyEnv) : Heap × Nat :=
  ({ h with envs := h.envs ++ [e] }, h.envs.length)

/-- Mutate the environment object at a reference. -/
def Heap.setEnv (h : Heap) (r : Nat) (e : PyEnv) : Heap :=
  { h with envs := h.envs.set r e }

/-- Dereference a dictionary. -/
def Heap.getDict (h : Heap) (r : Nat) : Kw := h.dicts.getD r []

/-- Allocate a fresh dictionary object, returning the new heap and the fresh
reference. -/
def Heap.allocDict (h : Heap) (d : Kw) : Heap × Nat :=
  ({ h with dicts := h.dicts ++ [d] }, h.dicts.length)

/-- The attributes of an `AgentStats` object, heap semantics: environments and
kwargs dictionaries are held by reference. -/
structure AgentStatsH (A : Type) where
  agent_class : AgentClassM A
  agent_name : String
  fit_info : List String
  train_env : Nat
  eval_env : Nat
  eval_horizon : Option Nat
  init_kwargs : Nat
  fit_kwargs : Nat
  policy_kwargs : Nat
  n_fit : Nat
  n_jobs : Nat
  verbose : Nat
  train_env_set : List Nat
  fitted_agents : Option (List A)
  fit_statistics : List (String × List Int)
  rng : Nat

/-- Constructor lines 109-114: `n_fit` iterations of "deep copy `train_env`
(a fresh allocation of its current value), reseed the copy with a fresh seed
`g` drawn from the global seeder, append it to `train_env_set`". -/
def makeTrainEnvSet : Heap → Nat → Nat → Nat → Heap × List Nat × Nat
  | h, _, g, 0 => (h, [], g)
  | h, tr, g, n + 1 =>
    let p := h.allocEnv (reseedVal (h.getEnv tr) g)
    let q := makeTrainEnvSet p.1 tr (g + 1) n
    (q.1, p.2 :: q.2.1, q.2.2)

/-- Constructor lines 94-107 for the kwargs attributes: `policy_kwargs` is
deep copied (line 96), `init_kwargs` and `fit_kwargs` are stored by reference
("init and fit kwargs are deep copied in fit()"), and a `None` kwarg becomes a
fresh empty dict (lines 102-107, in source order).  Returns the heap and the
references stored in `self.init_kwargs`, `self.fit_kwargs`,
`self.policy_kwargs`. -/
def makeDictRefs (h : Heap) (ik fk pk : Option Nat) : Heap × Nat × Nat × Nat :=
  let s1 : Heap × Option Nat :=
    match pk with
    | some r => ((h.allocDict (h.getDict r)).1, some (h.allocDict (h.getDict r)).2)
    | none => (h, none)
  let s2 : Heap × Nat :=
    match ik with
    | some r => (s1.1, r)
    | none => s1.1.allocDict []
  let s3 : Heap × Nat :=
    match fk with
    | some r => (s2.1, r)
    | none => s2.1.allocDict []
  let s4 : Heap × Nat :=
    match s1.2 with
    | some r => (s3.1, r)
    | none => s3.1.allocDict []
  (s4.1, s2.2, s3.2, s4.2)

/-- `AgentStats.__init__` (lines 28-128) with a non-None agent class, heap
semantics.  `train_env` is stored by reference (line 84); the eval environment
is a reseeded deep copy of `eval_env` (or of `train_env` when `None`); then
the kwargs attributes, then the `n_fit` reseeded training copies.  `g` is the
global seeder state, advanced once per reseed and once for the final
`seeding.get_rng()`; the timestamped `identifier`/`output_dir` attributes are
not modelled.  Returns the new heap, the object and the seeder state. -/
def AgentStatsH.make {A : Type} (C : AgentClassM A) (h : Heap) (train_env : Nat)
    (eval_env : Option Nat) (eval_horizon : Option Nat)
    (init_kwargs fit_kwargs policy_kwargs : Option Nat)
    (agent_name : Option String) (n_fit n_jobs verbose : Nat) (g : Nat) :
    Heap × AgentStatsH A × Nat :=
  let e1 := h.allocEnv (reseedVal (h.getEnv (eval_env.getD train_env)) g)
  let d := makeDictRefs e1.1 init_kwargs fit_kwargs policy_kwargs
  let t := makeTrainEnvSet d.1 train_env (g + 1) n_fit
  (t.1,
   { agent_class := C
     agent_name := agent_name.getD C.name
     fit_info := C.fit_info
     train_env := train_env
     eval_env := e1.2
     eval_horizon := eval_horizon
     init_kwargs := d.2.1
     fit_kwargs := d.2.2.1
     policy_kwargs := d.2.2.2
     n_fit := n_fit
     n_jobs := n_jobs
     verbose := verbose
     train_env_set := t.2.1
     fitted_agents := none
     fit_statistics := []
     rng := t.2.2 },
   t.2.2 + 1)

/-- Write the workers' post-training environment states back at the training
environments' addresses, in order. -/
def writeBackEnvs : Heap → List (Nat × PyEnv) → Heap
  | h, [] => h
  | h, (r, e) :: rest => writeBackEnvs (h.setEnv r e) rest

/-- `AgentStats.fit` (lines 130-151), heap semantics: one argument tuple per
training environment (the environment object, plus deep copies — value reads —
of `init_kwargs` and `fit_kwargs`), `_fit_worker` mapped over them by
`joblib.Parallel(n_jobs=...)`, fitted agents stored, per-entry statistics
gathered in worker order.  The worker's agent is built with `copy_env=False`,
so its training mutates the environment at the training address; the mutation
is written back, modelling an in-process joblib backend (the worst case for
non-interference with the caller's objects). -/
def AgentStatsH.fit {A : Type} (h : Heap) (st : AgentStatsH A) :
    Heap × AgentStatsH A :=
  let args := st.train_env_set.map
    (fun r => (h.getEnv r, h.getDict st.init_kwargs, h.getDict st.fit_kwargs))
  let workers_output := joblibParallel st.n_jobs
    (fun a => (st.agent_class.fitResultAgent a.1 a.2.1 a.2.2,
               st.agent_class.fitResultStat a.1 a.2.1 a.2.2,
               st.agent_class.fitResultEnv a.1 a.2.1 a.2.2)) args
  let h2 := writeBackEnvs h
    (st.train_env_set.zip (workers_output.map (fun w => w.2.2)))
  (h2,
   { st with
     fitted_agents := some (workers_output.map (fun w => w.1))
     fit_statistics := st.fit_info.map
       (fun e => (e, workers_output.map (fun w => w.2.1 e))) })

/-- Run `fit()` some number of times in a row. -/
def fitIter {A : Type} : Nat → Heap → AgentStatsH A → Heap × AgentStatsH A
  | 0, h, st => (h, st)
  | n + 1, h, st => fitIter n (AgentStatsH.fit h st).1 (AgentStatsH.fit h st).2

lemma makeTrainEnvSet_spec :
    ∀ (n : Nat) (h : Heap) (tr g : Nat), tr < h.envs.length →
      makeTrainEnvSet h tr g n =
        (Heap.mk
          (h.envs ++ (List.range' g n).map (fun s => reseedVal (h.getEnv tr) s))
          h.dicts,
         List.range' h.envs.length n, g + n) := by
  intro n
  induction n with
  | zero =>
    intro h tr g htr
    simp [makeTrainEnvSet, List.range']
  | succ n ih =>
    intro h tr g htr
    have htr1 : tr < (h.allocEnv (reseedVal (h.getEnv tr) g)).1.envs.length := by
      simp only [Heap.allocEnv, List.length_append, List.length_singleton]
      omega
    have hget : (h.allocEnv (reseedVal (h.getEnv tr) g)).1.getEnv tr
        = h.getEnv tr := by
      simp only [Heap.allocEnv, Heap.getEnv]
      exact List.getD_append _ _ _ _ htr
    simp only [makeTrainEnvSet]
    rw [ih ((h.allocEnv (reseedVal (h.getEnv tr) g)).1) tr (g + 1) htr1, hget]
    simp only [Heap.allocEnv, List.length_append, List.length_singleton,
      List.range'_succ]
    refine congrArg₂ Prod.mk ?_ (congrArg₂ Prod.mk rfl (by omega))
    rw [List.append_assoc]
    simp

lemma makeDictRefs_heap (h : Heap) (ik fk pk : Option Nat) :
    ∃ D : List Kw,
      (makeDictRefs h ik fk pk).1 = Heap.mk h.envs (h.dicts ++ D) := by
  rcases ik with _ | i <;> rcases fk with _ | f <;> rcases pk with _ | p
  · exact ⟨[[], [], []], by simp [makeDictRefs, Heap.allocDict]⟩
  · exact ⟨[h.getDict p, [], []], by simp [makeDictRefs, Heap.allocDict]⟩
  · exact ⟨[[], []], by simp [makeDictRefs, Heap.allocDict]⟩
  · exact ⟨[h.getDict p, []], by simp [makeDictRefs, Heap.allocDict]⟩
  · exact ⟨[[], []], by simp [makeDictRefs, Heap.allocDict]⟩
  · exact ⟨[h.getDict p, []], by simp [makeDictRefs, Heap.allocDict]⟩
  · exact ⟨[[]], by simp [makeDictRefs, Heap.allocDict]⟩
  · exact ⟨[h.getDict p], by simp [makeDictRefs, Heap.allocDict]⟩

lemma makeDictRefs_envs (h : Heap) (ik fk pk : Option Nat) :
    (makeDictRefs h ik fk pk).1.envs = h.envs := by
  rcases ik with _ | i <;> rcases fk with _ | f <;> rcases pk with _ | p <;> rfl

lemma makeDictRefs_ik (h : Heap) (i : Nat) (fk pk : Option Nat) :
    (makeDictRefs h (some i) fk pk).2.1 = i := by
  rcases fk with _ | f <;> rcases pk with _ | p <;> rfl

lemma makeDictRefs_fk (h : Heap) (ik : Option Nat) (f : Nat) (pk : Option Nat) :
    (makeDictRefs h ik (some f) pk).2.2.1 = f := by
  rcases ik with _ | i <;> rcases pk with _ | p <;> rfl

lemma getD_append_self (l : List Kw) (c : Kw) (X : List Kw) :
    (l ++ c :: X).getD l.length [] = c := by
  rw [List.getD_append_right _ _ _ _ (le_refl _)]
  simp

lemma makeDictRefs_pk (h : Heap) (ik fk : Option Nat) (p : Nat) :
    h.dicts.length ≤ (makeDictRefs h ik fk (some p)).2.2.2 ∧
    (makeDictRefs h ik fk (some p)).1.getDict
        ((makeDictRefs h ik fk (some p)).2.2.2) = h.getDict p := by
  rcases ik with _ | i <;> rcases fk with _ | f <;>
    exact ⟨le_refl _, by
      simp only [makeDictRefs, Heap.allocDict, Heap.getDict, List.append_assoc,
        List.singleton_append]
      exact getD_append_self _ _ _⟩

lemma dicts_then_train (h1 : Heap) (ik fk pk : Option Nat) (rt g n : Nat)
    (hrt : rt < h1.envs.length) :
    makeTrainEnvSet (makeDictRefs h1 ik fk pk).1 rt g n =
      (Heap.mk
        (h1.envs ++ (List.range' g n).map (fun s => reseedVal (h1.getEnv rt) s))
        (makeDictRefs h1 ik fk pk).1.dicts,
       List.range' h1.envs.length n, g + n) := by
  have hget : (makeDictRefs h1 ik fk pk).1.getEnv rt = h1.getEnv rt := by
    simp only [Heap.getEnv, makeDictRefs_envs]
  rw [makeTrainEnvSet_spec n _ rt g (by rw [makeDictRefs_envs]; exact hrt),
    hget, makeDictRefs_envs]

lemma make_unfold {A : Type} (C : AgentClassM A) (h : Heap) (rt : Nat)
    (ev eh ik fk pk : Option Nat) (an : Option String)
    (n_fit n_jobs v g : Nat) (hrt : rt < h.envs.length) :
    (AgentStatsH.make C h rt ev eh ik fk pk an n_fit n_jobs v g).1 =
      Heap.mk
        (h.envs ++ reseedVal (h.getEnv (ev.getD rt)) g ::
          (List.range' (g + 1) n_fit).map (fun s => reseedVal (h.getEnv rt) s))
        (makeDictRefs (h.allocEnv (reseedVal (h.getEnv (ev.getD rt)) g)).1
          ik fk pk).1.dicts ∧
    (AgentStatsH.make C h rt ev eh ik fk pk an n_fit n_jobs v g).2.1.train_env_set =
      List.range' (h.envs.length + 1) n_fit := by
  have hrt1 : rt < (h.allocEnv (reseedVal (h.getEnv (ev.getD rt)) g)).1.envs.length := by
    simp only [Heap.allocEnv, List.length_append, List.length_singleton]
    omega
  have hDT := dicts_then_train
    (h.allocEnv (reseedVal (h.getEnv (ev.getD rt)) g)).1 ik fk pk rt (g + 1)
    n_fit hrt1
  constructor
  · simp only [AgentStatsH.make]
    rw [hDT]
    simp [Heap.allocEnv, Heap.getEnv, List.getD_append _ _ _ _ hrt,
      List.getElem?_append_left hrt, List.append_assoc]
  · simp only [AgentStatsH.make]
    rw [hDT]
    simp [Heap.allocEnv]

lemma fit_fitted_agents {A : Type} (h : Heap) (st : AgentStatsH A) :
    (AgentStatsH.fit h st).2.fitted_agents =
      some (joblibParallel st.n_jobs (fun r =>
        st.agent_class.fitResultAgent (h.getEnv r) (h.getDict st.init_kwargs)
          (h.getDict st.fit_kwargs)) st.train_env_set) := by
  simp [AgentStatsH.fit, joblibParallel, List.map_map, Function.comp]

lemma fit_fit_statistics {A : Type} (h : Heap) (st : AgentStatsH A) :
    (AgentStatsH.fit h st).2.fit_statistics =
      st.fit_info.map (fun e => (e, st.train_env_set.map (fun r =>
        st.agent_class.fitResultStat (h.getEnv r) (h.getDict st.init_kwargs)
          (h.getDict st.fit_kwargs) e))) := by
  simp [AgentStatsH.fit, joblibParallel, List.map_map, Function.comp]

lemma lookup_map_self {β : Type} (l : List String) (F : String → β) (e : String)
    (he : e ∈ l) :
    (l.map (fun x => (x, F x))).lookup e = some (F e) := by
  induction l with
  | nil => cases he
  | cons x xs ih =>
    by_cases hx : e = x
    · subst hx
      simp [List.lookup]
    · rcases List.mem_cons.mp he with h | h
      · exact absurd h hx
      · have hbeq : (e == x) = false := beq_eq_false_iff_ne.mpr hx
        simpa [List.lookup, hbeq] using ih h

lemma writeBackEnvs_getEnv (r : Nat) :
    ∀ (l : List (Nat × PyEnv)) (h : Heap), (∀ p ∈ l, p.1 ≠ r) →
      (writeBackEnvs h l).getEnv r = h.getEnv r := by
  intro l
  induction l with
  | nil => intro h _; rfl
  | cons p rest ih =>
    intro h hne
    simp only [writeBackEnvs]
    rw [ih _ (fun q hq => hne q (List.mem_cons_of_mem p hq))]
    simp only [Heap.setEnv, Heap.getEnv]
    rw [List.getD_eq_getElem?_getD,
      List.getElem?_set_ne (hne p (List.mem_cons_self p rest)),
      ← List.getD_eq_getElem?_getD]

lemma writeBackEnvs_dicts :
    ∀ (l : List (Nat × PyEnv)) (h : Heap), (writeBackEnvs h l).dicts = h.dicts := by
  intro l
  induction l with
  | nil => intro h; rfl
  | cons p rest ih =>
    intro h
    simp only [writeBackEnvs]
    rw [ih]
    rfl

lemma fit_heap_getEnv {A : Type} (h : Heap) (st : AgentStatsH A) (r : Nat)
    (hr : r ∉ st.train_env_set) :
    (AgentStatsH.fit h st).1.getEnv r = h.getEnv r := by
  refine writeBackEnvs_getEnv r _ h ?_
  intro p hp hcon
  obtain ⟨a, b⟩ := p
  exact hr (hcon ▸ (List.of_mem_zip hp).1)

lemma fit_heap_dicts {A : Type} (h : Heap) (st : AgentStatsH A) :
    (AgentStatsH.fit h st).1.dicts = h.dicts :=
  writeBackEnvs_dicts _ h

lemma fitIter_succ {A : Type} (n : Nat) (h : Heap) (st : AgentStatsH A) :
    fitIter (n + 1) h st =
      fitIter n (AgentStatsH.fit h st).1 (AgentStatsH.fit h st).2 := rfl

lemma fitIter_frame {A : Type} (n : Nat) :
    ∀ (h : Heap) (st : AgentStatsH A) (r : Nat), r ∉ st.train_env_set →
      (fitIter n h st).1.getEnv r = h.getEnv r ∧
      (fitIter n h st).1.dicts = h.dicts := by
  induction n with
  | zero => intro h st r _; exact ⟨rfl, rfl⟩
  | succ n ih =>
    intro h st r hr
    have hr2 : r ∉ (AgentStatsH.fit h st).2.train_env_set := hr
    obtain ⟨he, hd⟩ := ih (AgentStatsH.fit h st).1 (AgentStatsH.fit h st).2 r hr2
    refine ⟨?_, ?_⟩
    · rw [fitIter_succ, he, fit_heap_getEnv h st r hr]
    · rw [fitIter_succ, hd, fit_heap_dicts h st]

/-- C2: for every `AgentStats` constructed with a non-None agent class and any
`n_fit ≥ 0`, the constructor builds exactly `n_fit` training environments (the
fresh addresses allocated right after the eval-env copy), each holding a deep
copy of the caller's `train_env` value reseeded with its own fresh seed from
the global seeder (seeds `g+1, ..., g+n_fit`, pairwise distinct); and `fit()`
trains exactly one agent per training environment by handing the worker calls
to `joblib.Parallel` with `n_jobs` jobs — the model's only parallel primitive,
which returns one result per argument — never spawning workers itself. -/
theorem c2_nfit_copies_and_joblib_delegation (A : Type) (C : AgentClassM A)
    (h : Heap) (rt : Nat) (ev eh ik fk pk : Option Nat) (an : Option String)
    (n_fit n_jobs v g : Nat) (hrt : rt < h.envs.length) :
    (AgentStatsH.make C h rt ev eh ik fk pk an n_fit n_jobs v g).2.1.train_env_set =
      List.range' (h.envs.length + 1) n_fit ∧
    (AgentStatsH.make C h rt ev eh ik fk pk an n_fit n_jobs
        v g).2.1.train_env_set.length = n_fit ∧
    (∀ i, i < n_fit →
      (AgentStatsH.make C h rt ev eh ik fk pk an n_fit n_jobs v g).1.getEnv
          (h.envs.length + 1 + i) =
        reseedVal (h.getEnv rt) (g + 1 + i)) ∧
    (∀ (h2 : Heap) (st : AgentStatsH A),
      (AgentStatsH.fit h2 st).2.fitted_agents =
        some (joblibParallel st.n_jobs (fun r =>
          st.agent_class.fitResultAgent (h2.getEnv r) (h2.getDict st.init_kwargs)
            (h2.getDict st.fit_kwargs)) st.train_env_set)) ∧
    (∀ (nj : Nat) (f : Nat → A) (l : List Nat),
      (joblibParallel nj f l).length = l.length) := by
  obtain ⟨hheap, hset⟩ := make_unfold C h rt ev eh ik fk pk an n_fit n_jobs v g hrt
  refine ⟨hset, by rw [hset]; exact List.length_range' _ _ _, ?_,
    fit_fitted_agents, fun nj f l => by simp [joblibParallel]⟩
  intro i hi
  rw [hheap]
  simp only [Heap.getEnv]
  rw [List.getD_append_right _ _ _ _ (by omega)]
  have h1 : h.envs.length + 1 + i - h.envs.length = i + 1 := by omega
  rw [h1, List.getD_cons_succ]
  rw [List.getD_eq_getElem _ _
    (by rw [List.length_map, List.length_range']; exact hi)]
  rw [List.getElem_map, List.getElem_range']
  congr 1
  omega

/-- A concrete heap used by witnesses: one environment (the caller's
`train_env` at address 0) and three dictionaries (the caller's `init_kwargs`,
`fit_kwargs` and `policy_kwargs` at addresses 0, 1, 2). -/
def exHeapH : Heap :=
  { envs := [{ seed := 3, data := 7 }]
    dicts := [[("lr", 1)], [("budget", 9)], [("pk", 2)]] }

/-- The `AgentStats` object built by the constructor on the concrete heap
(`n_fit = 2`, `n_jobs = 3`, seeder state 10), used by witnesses. -/
def exStatsH : AgentStatsH Int :=
  (AgentStatsH.make exAgentClass exHeapH 0 none none (some 0) (some 1) (some 2)
    none 2 3 5 10).2.1

/-- C2 witness: the concrete constructor run builds two training copies at the
fresh addresses 2 and 3 with seeds 11 and 12, and a concrete `fit()` call
delegates to `joblibParallel`, which returns one output per argument. -/
theorem c2_nfit_copies_and_joblib_delegation_witness :
    (AgentStatsH.make exAgentClass exHeapH 0 none none (some 0) (some 1)
        (some 2) none 2 3 5 10).2.1.train_env_set =
      List.range' (exHeapH.envs.length + 1) 2 ∧
    (AgentStatsH.make exAgentClass exHeapH 0 none none (some 0) (some 1)
        (some 2) none 2 3 5 10).2.1.train_env_set.length = 2 ∧
    (AgentStatsH.make exAgentClass exHeapH 0 none none (some 0) (some 1)
        (some 2) none 2 3 5 10).1.getEnv (exHeapH.envs.length + 1 + 0) =
      reseedVal (exHeapH.getEnv 0) (10 + 1 + 0) ∧
    (AgentStatsH.fit exHeapH exStatsH).2.fitted_agents =
      some (joblibParallel exStatsH.n_jobs (fun r =>
        exStatsH.agent_class.fitResultAgent (exHeapH.getEnv r)
          (exHeapH.getDict exStatsH.init_kwargs)
          (exHeapH.getDict exStatsH.fit_kwargs)) exStatsH.train_env_set) ∧
    (joblibParallel 3 (fun r => (r : Int)) [5, 6]).length = [5, 6].length :=
  ⟨(c2_nfit_copies_and_joblib_delegation Int exAgentClass exHeapH 0 none none
      (some 0) (some 1) (some 2) none 2 3 5 10 (by decide)).1,
   (c2_nfit_copies_and_joblib_delegation Int exAgentClass exHeapH 0 none none
      (some 0) (some 1) (some 2) none 2 3 5 10 (by decide)).2.1,
   (c2_nfit_copies_and_joblib_delegation Int exAgentClass exHeapH 0 none none
      (some 0) (some 1) (some 2) none 2 3 5 10 (by decide)).2.2.1 0 (by decide),
   (c2_nfit_copies_and_joblib_delegation Int exAgentClass exHeapH 0 none none
      (some 0) (some 1) (some 2) none 2 3 5 10 (by decide)).2.2.2.1 exHeapH
     exStatsH,
   (c2_nfit_copies_and_joblib_delegation Int exAgentClass exHeapH 0 none none
      (some 0) (some 1) (some 2) none 2 3 5 10 (by decide)).2.2.2.2 3
     (fun r => (r : Int)) [5, 6]⟩

/-- C3: after `fit()` returns on a freshly constructed `AgentStats`,
`fitted_agents` is the list of the `n_fit` agents fitted on the training
environments in order, and for every entry of `agent_class.fit_info`,
`fit_statistics[entry]` is the length-`n_fit` list whose i-th element is the
statistic returned by the i-th worker's `agent.fit()` call — the worker that
trained on the i-th training environment. -/
theorem c3_fit_collects_learning_curves (A : Type) (C : AgentClassM A)
    (h : Heap) (rt : Nat) (ev eh ik fk pk : Option Nat) (an : Option String)
    (n_fit n_jobs v g : Nat) (hrt : rt < h.envs.length) :
    ∃ (h1 : Heap) (st1 : AgentStatsH A),
      AgentStatsH.make C h rt ev eh ik fk pk an n_fit n_jobs v g =
        (h1, st1,
          (AgentStatsH.make C h rt ev eh ik fk pk an n_fit n_jobs v g).2.2) ∧
      st1.train_env_set.length = n_fit ∧
      (AgentStatsH.fit h1 st1).2.fitted_agents =
        some (st1.train_env_set.map (fun r =>
          C.fitResultAgent (h1.getEnv r) (h1.getDict st1.init_kwargs)
            (h1.getDict st1.fit_kwargs))) ∧
      (∀ e ∈ C.fit_info,
        ((AgentStatsH.fit h1 st1).2.fit_statistics).lookup e =
          some (st1.train_env_set.map (fun r =>
            C.fitResultStat (h1.getEnv r) (h1.getDict st1.init_kwargs)
              (h1.getDict st1.fit_kwargs) e)) ∧
        (st1.train_env_set.map (fun r =>
          C.fitResultStat (h1.getEnv r) (h1.getDict st1.init_kwargs)
            (h1.getDict st1.fit_kwargs) e)).length = n_fit ∧
        (∀ i d, i < n_fit →
          (st1.train_env_set.map (fun r =>
            C.fitResultStat (h1.getEnv r) (h1.getDict st1.init_kwargs)
              (h1.getDict st1.fit_kwargs) e)).getD i d =
            C.fitResultStat (h1.getEnv (st1.train_env_set.getD i 0))
              (h1.getDict st1.init_kwargs) (h1.getDict st1.fit_kwargs) e)) := by
  obtain ⟨hheap, hset⟩ := make_unfold C h rt ev eh ik fk pk an n_fit n_jobs v g hrt
  refine ⟨(AgentStatsH.make C h rt ev eh ik fk pk an n_fit n_jobs v g).1,
    (AgentStatsH.make C h rt ev eh ik fk pk an n_fit n_jobs v g).2.1,
    rfl, ?_, ?_, ?_⟩
  · rw [hset]; exact List.length_range' _ _ _
  · rw [fit_fitted_agents]
    rfl
  · intro e he
    refine ⟨?_, ?_, ?_⟩
    · rw [fit_fit_statistics]
      exact lookup_map_self _ _ e he
    · rw [List.length_map, hset]
      exact List.length_range' _ _ _
    · intro i d hi
      have hlt : i <
          (AgentStatsH.make C h rt ev eh ik fk pk an n_fit n_jobs
            v g).2.1.train_env_set.length := by
        rw [hset, List.length_range']; exact hi
      simp [List.getD_eq_getElem?_getD, List.getElem?_map,
        List.getElem?_eq_getElem hlt]

/-- C3 witness: the concrete constructor-then-fit run: two fitted agents (one
per training environment, in order), and for the entry `"n_episodes"` of
`fit_info` the gathered per-worker statistics, with the i-th element coming
from the i-th training environment. -/
theorem c3_fit_collects_learning_curves_witness :
    ∃ (h1 : Heap) (st1 : AgentStatsH Int),
      AgentStatsH.make exAgentClass exHeapH 0 none none (some 0) (some 1)
          (some 2) none 2 3 5 10 =
        (h1, st1,
          (AgentStatsH.make exAgentClass exHeapH 0 none none (some 0) (some 1)
            (some 2) none 2 3 5 10).2.2) ∧
      st1.train_env_set.length = 2 ∧
      (AgentStatsH.fit h1 st1).2.fitted_agents =
        some (st1.train_env_set.map (fun r =>
          exAgentClass.fitResultAgent (h1.getEnv r) (h1.getDict st1.init_kwargs)
            (h1.getDict st1.fit_kwargs))) ∧
      (((AgentStatsH.fit h1 st1).2.fit_statistics).lookup "n_episodes" =
          some (st1.train_env_set.map (fun r =>
            exAgentClass.fitResultStat (h1.getEnv r) (h1.getDict st1.init_kwargs)
              (h1.getDict st1.fit_kwargs) "n_episodes")) ∧
        (st1.train_env_set.map (fun r =>
          exAgentClass.fitResultStat (h1.getEnv r) (h1.getDict st1.init_kwargs)
            (h1.getDict st1.fit_kwargs) "n_episodes")).length = 2 ∧
        (st1.train_env_set.map (fun r =>
          exAgentClass.fitResultStat (h1.getEnv r) (h1.getDict st1.init_kwargs)
            (h1.getDict st1.fit_kwargs) "n_episodes")).getD 0 0 =
          exAgentClass.fitResultStat (h1.getEnv (st1.train_env_set.getD 0 0))
            (h1.getDict st1.init_kwargs) (h1.getDict st1.fit_kwargs)
            "n_episodes") := by
  obtain ⟨h1, st1, heq, hlen, hagents, hstats⟩ :=
    c3_fit_collects_learning_curves Int exAgentClass exHeapH 0 none none
      (some 0) (some 1) (some 2) none 2 3 5 10 (by decide)
  obtain ⟨hlook, hslen, hidx⟩ := hstats "n_episodes" (by decide)
  exact ⟨h1, st1, heq, hlen, hagents, hlook, hslen, hidx 0 0 (by decide)⟩

/-- C9 counterexample: the constructor does NOT store a deep copy of
`train_env`: `self.train_env = train_env` (agent_stats.py line 84) stores the
caller's reference itself.  On the concrete heap whose only pre-existing
environment is the caller's `train_env` at address 0, a deep copy would be a
fresh address (at least `envs.length = 1`); the stored `train_env` attribute
is address 0, the caller's own object. -/
theorem c9_train_env_is_aliased :
    ¬ (exHeapH.envs.length ≤
        (AgentStatsH.make exAgentClass exHeapH 0 none none (some 0) (some 1)
          (some 2) none 2 3 5 10).2.1.train_env) := by
  decide

/-- C9 (amended): the constructor stores `eval_env` and the `n_fit` training
environments as fresh reseeded deep copies and `policy_kwargs` as a fresh deep
copy, but stores `train_env` (and `init_kwargs`, `fit_kwargs`) by reference;
`fit()` passes deep copies (value reads) of `init_kwargs` and `fit_kwargs` to
every worker and the workers mutate only the deep-copied training
environments, so after construction and any number of `fit()` calls the
caller's `train_env` object and the caller's `init_kwargs`, `fit_kwargs` and
`policy_kwargs` dictionaries are unchanged. -/
theorem c9_fit_never_mutates_caller_objects (A : Type) (C : AgentClassM A)
    (h : Heap) (rt : Nat) (ev eh : Option Nat) (ikr fkr pkr : Nat)
    (an : Option String) (n_fit n_jobs v g nIter : Nat)
    (hrt : rt < h.envs.length) (hik : ikr < h.dicts.length)
    (hfk : fkr < h.dicts.length) (hpk : pkr < h.dicts.length) :
    (AgentStatsH.make C h rt ev eh (some ikr) (some fkr) (some pkr) an n_fit
        n_jobs v g).2.1.train_env = rt ∧
    (AgentStatsH.make C h rt ev eh (some ikr) (some fkr) (some pkr) an n_fit
        n_jobs v g).2.1.init_kwargs = ikr ∧
    (AgentStatsH.make C h rt ev eh (some ikr) (some fkr) (some pkr) an n_fit
        n_jobs v g).2.1.fit_kwargs = fkr ∧
    h.dicts.length ≤
      (AgentStatsH.make C h rt ev eh (some ikr) (some fkr) (some pkr) an n_fit
        n_jobs v g).2.1.policy_kwargs ∧
    (AgentStatsH.make C h rt ev eh (some ikr) (some fkr) (some pkr) an n_fit
        n_jobs v g).1.getDict
      ((AgentStatsH.make C h rt ev eh (some ikr) (some fkr) (some pkr) an n_fit
        n_jobs v g).2.1.policy_kwargs) = h.getDict pkr ∧
    h.envs.length ≤
      (AgentStatsH.make C h rt ev eh (some ikr) (some fkr) (some pkr) an n_fit
        n_jobs v g).2.1.eval_env ∧
    (∀ rr ∈ (AgentStatsH.make C h rt ev eh (some ikr) (some fkr) (some pkr) an
        n_fit n_jobs v g).2.1.train_env_set, h.envs.length < rr) ∧
    (fitIter nIter
        (AgentStatsH.make C h rt ev eh (some ikr) (some fkr) (some pkr) an n_fit
          n_jobs v g).1
        (AgentStatsH.make C h rt ev eh (some ikr) (some fkr) (some pkr) an n_fit
          n_jobs v g).2.1).1.getEnv rt = h.getEnv rt ∧
    (fitIter nIter
        (AgentStatsH.make C h rt ev eh (some ikr) (some fkr) (some pkr) an n_fit
          n_jobs v g).1
        (AgentStatsH.make C h rt ev eh (some ikr) (some fkr) (some pkr) an n_fit
          n_jobs v g).2.1).1.getDict ikr = h.getDict ikr ∧
    (fitIter nIter
        (AgentStatsH.make C h rt ev eh (some ikr) (some fkr) (some pkr) an n_fit
          n_jobs v g).1
        (AgentStatsH.make C h rt ev eh (some ikr) (some fkr) (some pkr) an n_fit
          n_jobs v g).2.1).1.getDict fkr = h.getDict fkr ∧
    (fitIter nIter
        (AgentStatsH.make C h rt ev eh (some ikr) (some fkr) (some pkr) an n_fit
          n_jobs v g).1
        (AgentStatsH.make C h rt ev eh (some ikr) (some fkr) (some pkr) an n_fit
          n_jobs v g).2.1).1.getDict pkr = h.getDict pkr := by
  obtain ⟨hheap, hset⟩ := make_unfold C h rt ev eh (some ikr) (some fkr)
    (some pkr) an n_fit n_jobs v g hrt
  have hpkv := makeDictRefs_pk
    (h.allocEnv (reseedVal (h.getEnv (ev.getD rt)) g)).1 (some ikr) (some fkr) pkr
  have hnotmem : rt ∉ (AgentStatsH.make C h rt ev eh (some ikr) (some fkr)
      (some pkr) an n_fit n_jobs v g).2.1.train_env_set := by
    rw [hset]
    intro hmem
    have := List.mem_range'_1.mp hmem
    omega
  obtain ⟨hfe, hfd⟩ := fitIter_frame nIter
    (AgentStatsH.make C h rt ev eh (some ikr) (some fkr) (some pkr) an n_fit
      n_jobs v g).1
    (AgentStatsH.make C h rt ev eh (some ikr) (some fkr) (some pkr) an n_fit
      n_jobs v g).2.1 rt hnotmem
  obtain ⟨D, hD⟩ := makeDictRefs_heap
    (h.allocEnv (reseedVal (h.getEnv (ev.getD rt)) g)).1 (some ikr) (some fkr)
    (some pkr)
  have hdicts : (AgentStatsH.make C h rt ev eh (some ikr) (some fkr) (some pkr)
      an n_fit n_jobs v g).1.dicts = h.dicts ++ D := by
    rw [hheap]
    show (makeDictRefs (h.allocEnv (reseedVal (h.getEnv (ev.getD rt)) g)).1
      (some ikr) (some fkr) (some pkr)).1.dicts = h.dicts ++ D
    rw [hD]
    rfl
  have hgetdict : ∀ r, r < h.dicts.length →
      (fitIter nIter
        (AgentStatsH.make C h rt ev eh (some ikr) (some fkr) (some pkr) an n_fit
          n_jobs v g).1
        (AgentStatsH.make C h rt ev eh (some ikr) (some fkr) (some pkr) an n_fit
          n_jobs v g).2.1).1.getDict r = h.getDict r := by
    intro r hr
    show (fitIter nIter _ _).1.dicts.getD r [] = h.dicts.getD r []
    rw [hfd, hdicts]
    exact List.getD_append _ _ _ _ hr
  refine ⟨rfl, ?_, ?_, ?_, ?_, ?_, ?_, ?_, hgetdict ikr hik, hgetdict fkr hfk,
    hgetdict pkr hpk⟩
  · exact makeDictRefs_ik (h.allocEnv (reseedVal (h.getEnv (ev.getD rt)) g)).1
      ikr (some fkr) (some pkr)
  · exact makeDictRefs_fk (h.allocEnv (reseedVal (h.getEnv (ev.getD rt)) g)).1
      (some ikr) fkr (some pkr)
  · exact hpkv.1
  · show (AgentStatsH.make C h rt ev eh (some ikr) (some fkr) (some pkr) an
        n_fit n_jobs v g).1.dicts.getD
      ((AgentStatsH.make C h rt ev eh (some ikr) (some fkr) (some pkr) an n_fit
        n_jobs v g).2.1.policy_kwargs) [] = h.getDict pkr
    rw [hdicts]
    have h2 := hpkv.2
    rw [hD] at h2
    exact h2
  · exact le_refl _
  · intro rr hmem
    rw [hset] at hmem
    have := List.mem_range'_1.mp hmem
    omega
  · rw [hfe, hheap]
    simp only [Heap.getEnv]
    exact List.getD_append _ _ _ _ hrt

/-- C9 witness: the amended frame property at the concrete heap (caller's
train_env at address 0, kwargs dictionaries at addresses 0, 1, 2), after the
constructor and two consecutive `fit()` calls. -/
theorem c9_fit_never_mutates_caller_objects_witness :
    (AgentStatsH.make exAgentClass exHeapH 0 none none (some 0) (some 1)
        (some 2) none 2 3 5 10).2.1.train_env = 0 ∧
    (AgentStatsH.make exAgentClass exHeapH 0 none none (some 0) (some 1)
        (some 2) none 2 3 5 10).2.1.init_kwargs = 0 ∧
    (AgentStatsH.make exAgentClass exHeapH 0 none none (some 0) (some 1)
        (some 2) none 2 3 5 10).2.1.fit_kwargs = 1 ∧
    exHeapH.dicts.length ≤
      (AgentStatsH.make exAgentClass exHeapH 0 none none (some 0) (some 1)
        (some 2) none 2 3 5 10).2.1.policy_kwargs ∧
    (AgentStatsH.make exAgentClass exHeapH 0 none none (some 0) (some 1)
        (some 2) none 2 3 5 10).1.getDict
      ((AgentStatsH.make exAgentClass exHeapH 0 none none (some 0) (some 1)
        (some 2) none 2 3 5 10).2.1.policy_kwargs) = exHeapH.getDict 2 ∧
    exHeapH.envs.length ≤
      (AgentStatsH.make exAgentClass exHeapH 0 none none (some 0) (some 1)
        (some 2) none 2 3 5 10).2.1.eval_env ∧
    (∀ rr ∈ (AgentStatsH.make exAgentClass exHeapH 0 none none (some 0)
        (some 1) (some 2) none 2 3 5 10).2.1.train_env_set,
      exHeapH.envs.length < rr) ∧
    (fitIter 2
        (AgentStatsH.make exAgentClass exHeapH 0 none none (some 0) (some 1)
          (some 2) none 2 3 5 10).1
        (AgentStatsH.make exAgentClass exHeapH 0 none none (some 0) (some 1)
          (some 2) none 2 3 5 10).2.1).1.getEnv 0 = exHeapH.getEnv 0 ∧
    (fitIter 2
        (AgentStatsH.make exAgentClass exHeapH 0 none none (some 0) (some 1)
          (some 2) none 2 3 5 10).1
        (AgentStatsH.make exAgentClass exHeapH 0 none none (some 0) (some 1)
          (some 2) none 2 3 5 10).2.1).1.getDict 0 = exHeapH.getDict 0 ∧
    (fitIter 2
        (AgentStatsH.make exAgentClass exHeapH 0 none none (some 0) (some 1)
          (some 2) none 2 3 5 10).1
        (AgentStatsH.make exAgentClass exHeapH 0 none none (some 0) (some 1)
          (some 2) none 2 3 5 10).2.1).1.getDict 1 = exHeapH.getDict 1 ∧
    (fitIter 2
        (AgentStatsH.make exAgentClass exHeapH 0 none none (some 0) (some 1)
          (some 2) none 2 3 5 10).1
        (AgentStatsH.make exAgentClass exHeapH 0 none none (some 0) (some 1)
          (some 2) none 2 3 5 10).2.1).1.getDict 2 = exHeapH.getDict 2 :=
  c9_fit_never_mutates_caller_objects Int exAgentClass exHeapH 0 none none
    0 1 2 none 2 3 5 10 2 (by decide) (by decide) (by decide) (by decide)

end RlberrySpec
